import Mathlib

/-!
Verification of the KerasCV `SAMPromptEncoder`
(`keras_cv/models/segmentation/segment_anything/sam_prompt_encoder.py`) and of
the construction-time validation of the sibling `OldRandomFlip` layer
(`benchmarks/vectorized_random_flip.py`).

Tensors are modelled as nested lists of rationals (channels-last), batch axes
as outer lists.  The float32 arithmetic of the backend is modelled exactly over
`ℚ`; the trigonometric functions and the reciprocal square root used by layer
normalization are irrational-valued, so they appear as abstract function
parameters (`sinf`, `cosf`, `rsqrt`) — every claim below is quantified over
them, so no claim depends on their analytic properties.

The positional-embedding layer `RandomFrequencyPositionalEmbeddings` lives in
`sam_layers.py`, which is not among the provided sources; its two entry points
`encode_coordinates` and `encode_image` are modelled from the specification
(§4.1) and are marked as such in their doc comments.
-/

namespace SAM

/-- A feature vector: one row of an embedding table, or one `embed_dim`-sized
embedding output. -/
abbrev Vec := List ℚ

/-- Channels-last spatial tensor: height × width × channels. -/
abbrev Image := List (List Vec)

/-- Elementwise addition of two feature vectors (the backend's broadcasting
`+` at matching shapes). -/
def vadd (a b : Vec) : Vec := List.zipWith (· + ·) a b

/-- Modelled from the spec: the random-Fourier feature map inside
`RandomFrequencyPositionalEmbeddings` (file `sam_layers.py`, absent from the
sources).  A normalized coordinate pair in `[0,1]²` is affinely mapped to
`[-1,1]²`, projected through the frozen `(2, embed_dim/2)` basis (the `2π`
scale and the trigonometric functions are folded into the abstract
`sinf`/`cosf` parameters, since neither `π` nor `sin` takes rational values),
and the sine features are concatenated with the cosine features. -/
def fourierFeatures (sinf cosf : ℚ → ℚ) (basis : List (ℚ × ℚ)) (c : ℚ × ℚ) : Vec :=
  let proj := basis.map (fun b => (2 * c.1 - 1) * b.1 + (2 * c.2 - 1) * b.2)
  proj.map sinf ++ proj.map cosf

/-- Modelled from the spec: `encode_coordinates(coords, image_size)` normalizes
a pixel-space `(x, y)` coordinate by the image dimensions — `x` against the
width `image_size.2`, `y` against the height `image_size.1` — and applies the
frozen random-Fourier feature map. -/
def encode_coordinates (sinf cosf : ℚ → ℚ) (basis : List (ℚ × ℚ))
    (image_size : ℕ × ℕ) (p : ℚ × ℚ) : Vec :=
  fourierFeatures sinf cosf basis
    (p.1 / ((image_size.2 : ℚ)), p.2 / ((image_size.1 : ℚ)))

/-- Modelled from the spec: `encode_image(grid_size)` builds the dense `H×W`
grid of normalized pixel-center coordinates and applies the same feature map to
every cell; cell `(i, j)` holds the encoding of the normalized pair
`((j+0.5)/W, (i+0.5)/H)` in `(x, y)` order (`x` against the width). -/
def encode_image (sinf cosf : ℚ → ℚ) (basis : List (ℚ × ℚ))
    (grid : ℕ × ℕ) : List (List Vec) :=
  (List.range grid.1).map (fun (i : ℕ) =>
    (List.range grid.2).map (fun (j : ℕ) =>
      fourierFeatures sinf cosf basis
        (((j : ℚ) + 0.5) / ((grid.2 : ℚ)), ((i : ℚ) + 0.5) / ((grid.1 : ℚ)))))

/-- Weights of one `Conv2D` layer: `weight dy dx cin cout` is the kernel entry
at kernel row `dy`, kernel column `dx`, input channel `cin`, output channel
`cout`; `bias` is the per-output-channel bias. -/
structure ConvParams where
  weight : ℕ → ℕ → ℕ → ℕ → ℚ
  bias : ℕ → ℚ

/-- Learned scale (`gamma`) and shift (`beta`) of one `LayerNormalization`
layer, indexed by channel. -/
structure NormParams where
  gamma : ℕ → ℚ
  beta : ℕ → ℚ

/-- Spatial output extent of a valid-padding convolution with kernel `k` and
stride `s` over an input extent `n` (Keras `Conv2D` default padding). -/
def convOut (n k s : ℕ) : ℕ := (n - k) / s + 1

/-- `keras.layers.Conv2D(cout, kernel_size=k, strides=s)` on one channels-last
image: each output pixel is the bias plus the kernel-window dot product. -/
def conv2d (k s cout : ℕ) (P : ConvParams) (img : Image) : Image :=
  let H := img.length
  let W := (img.headD []).length
  let cin := ((img.headD []).headD []).length
  (List.range (convOut H k s)).map (fun i =>
    (List.range (convOut W k s)).map (fun j =>
      (List.range cout).map (fun co =>
        P.bias co +
          ((List.range k).map (fun dy =>
            ((List.range k).map (fun dx =>
              ((List.range cin).map (fun ci =>
                P.weight dy dx ci co *
                  (((img.getD (s * i + dy) []).getD (s * j + dx) []).getD ci 0))).sum)).sum)).sum)))

/-- The epsilon of the `LayerNormalization(epsilon=1e-6)` layers in the mask
downscaler. -/
def epsLN : ℚ := 1 / 1000000

/-- `keras.layers.LayerNormalization` over the channel axis of one pixel:
center by the mean, scale by the reciprocal square root of variance plus
epsilon (`rsqrt` abstract, since square roots are irrational), then apply the
learned per-channel scale and shift. -/
def layerNorm (rsqrt : ℚ → ℚ) (P : NormParams) (x : Vec) : Vec :=
  let n : ℚ := (x.length : ℚ)
  let mean := x.sum / n
  let varr := ((x.map (fun v => (v - mean) ^ 2)).sum) / n
  x.mapIdx (fun i v => P.gamma i * ((v - mean) * rsqrt (varr + epsLN)) + P.beta i)

/-- Parameters of the `mask_downscaler` Sequential model: three convolutions,
two layer normalizations, the pointwise activation (abstract), and the
abstract reciprocal square root used by the normalizations. -/
structure MaskDownscaler where
  conv1 : ConvParams
  norm1 : NormParams
  conv2 : ConvParams
  norm2 : NormParams
  conv3 : ConvParams
  act : ℚ → ℚ
  rsqrt : ℚ → ℚ

/-- The `mask_downscaler` pipeline from `SAMPromptEncoder.__init__`:
`Conv2D(mask_in_chans // 4, kernel_size=2, strides=2)` → `LayerNormalization`
→ `Activation` → `Conv2D(mask_in_chans, kernel_size=2, strides=2)` →
`LayerNormalization` → `Activation` → `Conv2D(embed_dim, kernel_size=1)`. -/
def applyDownscaler (embed_dim mask_in_chans : ℕ) (d : MaskDownscaler)
    (img : Image) : Image :=
  let x1 := conv2d 2 2 (mask_in_chans / 4) d.conv1 img
  let x2 := x1.map (fun row => row.map (layerNorm d.rsqrt d.norm1))
  let x3 := x2.map (fun row => row.map (fun v => v.map d.act))
  let x4 := conv2d 2 2 mask_in_chans d.conv2 x3
  let x5 := x4.map (fun row => row.map (layerNorm d.rsqrt d.norm2))
  let x6 := x5.map (fun row => row.map (fun v => v.map d.act))
  conv2d 1 1 embed_dim d.conv3 x6

/-- The state of a built `SAMPromptEncoder`: the configuration scalars, the
frozen random-Fourier basis (with its abstract trigonometric functions), the
five single-row prompt embedding tables, the `no_mask_embed` table, and the
mask downscaler weights. -/
structure PromptEncoder where
  embed_dim : ℕ
  image_embedding_size : ℕ × ℕ
  input_image_size : ℕ × ℕ
  mask_in_chans : ℕ
  sinf : ℚ → ℚ
  cosf : ℚ → ℚ
  basis : List (ℚ × ℚ)
  foreground_point_embed : Vec
  background_point_embed : Vec
  top_left_corner_embed : Vec
  bottom_right_corner_embed : Vec
  not_a_point_embed : Vec
  no_mask_embed : Vec
  downscaler : MaskDownscaler

/-- `SAMPromptEncoder.__embed_points` restricted to one point/label pair: add
`0.5` to the coordinates, encode, then `ops.where(labels == 0, pe + background,
pe + foreground)` followed by `ops.where(labels == -1, not_a_point, pe)`.  The
label is broadcast across the feature axis in the source, so both selections
are uniform over the feature vector. -/
def embedPoint (e : PromptEncoder) (p : ℚ × ℚ) (label : ℤ) : Vec :=
  let pe := encode_coordinates e.sinf e.cosf e.basis e.input_image_size
    (p.1 + 0.5, p.2 + 0.5)
  let pe2 := if label = 0 then vadd pe e.background_point_embed
    else vadd pe e.foreground_point_embed
  if label = -1 then e.not_a_point_embed else pe2

/-- `SAMPromptEncoder.__embed_points` over one batch element: one embedding per
point/label pair, in order. -/
def embed_points (e : PromptEncoder) (points : List (ℚ × ℚ))
    (labels : List ℤ) : List Vec :=
  List.zipWith (embedPoint e) points labels

/-- `SAMPromptEncoder.__embed_box` over one batch element: add `0.5` to all box
coordinates, encode both corners, add the top-left table row to corner 0 and
the bottom-right table row to corner 1, then flatten the corner axis into the
sequence axis (`ops.stack` on axis 2 followed by `ops.reshape` to
`(B, N*2, embed_dim)`), so each box contributes two consecutive entries. -/
def embed_box (e : PromptEncoder) (boxes : List ((ℚ × ℚ) × (ℚ × ℚ))) : List Vec :=
  (boxes.map (fun b =>
    [vadd (encode_coordinates e.sinf e.cosf e.basis e.input_image_size
        (b.1.1 + 0.5, b.1.2 + 0.5)) e.top_left_corner_embed,
     vadd (encode_coordinates e.sinf e.cosf e.basis e.input_image_size
        (b.2.1 + 0.5, b.2.2 + 0.5)) e.bottom_right_corner_embed])).flatten

/-- Batched mask prompt: batch × num_masks × height × width × channels. -/
abbrev MaskBatch := List (List Image)

/-- Total number of scalar elements of one mask item (`ops.size` restricted to
one item). -/
def imageSize (img : Image) : ℕ :=
  (img.map (fun row => (row.map List.length).sum)).sum

/-- `ops.size(mask)`: the total number of scalar elements of the batched mask
prompt. -/
def maskBatchSize (m : MaskBatch) : ℕ :=
  (m.map (fun item => (item.map imageSize).sum)).sum

/-- The input mapping of `SAMPromptEncoder.call`: `points`, `labels`, `boxes`
and `masks`, each with an outer batch axis. -/
structure PromptInputs where
  points : List (List (ℚ × ℚ))
  labels : List (List ℤ)
  boxes : List (List ((ℚ × ℚ) × (ℚ × ℚ)))
  masks : MaskBatch

/-- The output mapping of `SAMPromptEncoder.call`. -/
structure EncoderOutputs where
  sparse_embeddings : List (List Vec)
  dense_embeddings : List Image
  dense_positional_embeddings : List (List (List Vec))

/-- `SAMPromptEncoder.call`: concatenate the point embeddings and the box
embeddings along the sequence axis (points first); produce the dense
embeddings by `ops.cond(ops.size(mask) == 0, no-mask-broadcast, downscale)`,
where the non-empty branch also dispatches to the no-mask broadcast when the
num-masks axis is zero-sized (`mask.shape[1] == 0`) and otherwise flattens the
batch and multi-mask axes together (`ops.reshape(mask, (BM*N, H, W, C))`)
before applying the mask downscaler; and return the image-grid positional
encoding with a leading length-1 batch axis (`[None, ...]`). -/
def call (e : PromptEncoder) (inp : PromptInputs) : EncoderOutputs :=
  let B := inp.points.length
  let sparse := (List.range B).map (fun b =>
    embed_points e (inp.points.getD b []) (inp.labels.getD b []) ++
      embed_box e (inp.boxes.getD b []))
  let noMaskDense := List.replicate B (List.replicate e.image_embedding_size.1
    (List.replicate e.image_embedding_size.2 e.no_mask_embed))
  let dense := if maskBatchSize inp.masks = 0 then noMaskDense
    else if (inp.masks.headD []).length = 0 then noMaskDense
    else (inp.masks.flatten).map
      (applyDownscaler e.embed_dim e.mask_in_chans e.downscaler)
  { sparse_embeddings := sparse,
    dense_embeddings := dense,
    dense_positional_embeddings :=
      [encode_image e.sinf e.cosf e.basis e.image_embedding_size] }

/-- A small concrete mask-downscaler parameter set, used to instantiate the
universally quantified theorems below at concrete inputs. -/
def exDownscaler : MaskDownscaler :=
  { conv1 := ⟨fun _ _ _ _ => 1, fun _ => 0⟩
    norm1 := ⟨fun _ => 1, fun _ => 0⟩
    conv2 := ⟨fun _ _ _ _ => 1, fun _ => 0⟩
    norm2 := ⟨fun _ => 1, fun _ => 0⟩
    conv3 := ⟨fun _ _ _ _ => 1, fun _ => 0⟩
    act := id
    rsqrt := fun _ => 1 }

/-- A small concrete encoder state (embed_dim 2, image grid 1×1, input image
100×100), used to instantiate the universally quantified theorems below at
concrete inputs. -/
def exEncoder : PromptEncoder :=
  { embed_dim := 2
    image_embedding_size := (1, 1)
    input_image_size := (100, 100)
    mask_in_chans := 4
    sinf := id
    cosf := id
    basis := [(1, 2)]
    foreground_point_embed := [1, 0]
    background_point_embed := [0, 1]
    top_left_corner_embed := [2, 0]
    bottom_right_corner_embed := [0, 2]
    not_a_point_embed := [3, 3]
    no_mask_embed := [4, 4]
    downscaler := exDownscaler }

/-- A concrete one-box prompt, used to instantiate theorems below. -/
def exBoxes : List ((ℚ × ℚ) × (ℚ × ℚ)) := [((1, 2), (3, 4))]

/-- A concrete prompt-input bundle with one batch row and every prompt segment
empty, used to instantiate theorems below. -/
def exInputsEmpty : PromptInputs :=
  { points := [[]], labels := [[]], boxes := [[]], masks := [] }

/-- Shape predicate for a channels-last spatial tensor: `H` rows, each row of
`W` pixels, each pixel of `C` channels. -/
def HasShape (img : Image) (H W C : ℕ) : Prop :=
  img.length = H ∧ (∀ row ∈ img, row.length = W) ∧
    ∀ row ∈ img, ∀ px ∈ row, px.length = C

instance (img : Image) (H W C : ℕ) : Decidable (HasShape img H W C) := by
  unfold HasShape; infer_instance

/-- A concrete 4×4×1 mask item (the all-ones mask), used to instantiate
theorems below. -/
def exMask : Image := List.replicate 4 (List.replicate 4 [(1 : ℚ)])

/-- A concrete prompt-input bundle with one batch row, empty point and box
prompts and one 4×4×1 mask, used to instantiate theorems below. -/
def exInputsMask : PromptInputs :=
  { points := [[]], labels := [[]], boxes := [[]], masks := [[exMask]] }

/-- The configuration scalars accepted by `SAMPromptEncoder.__init__`. -/
structure SAMPromptEncoderConfig where
  embed_dim : ℕ
  image_embedding_size : ℕ × ℕ
  input_image_size : ℕ × ℕ
  mask_in_chans : ℕ
  activation : String

/-- `SAMPromptEncoder.__init__`: it stores the configuration and creates the
sublayers, performing no validation of any configuration value — in
particular none of `input_image_size` — and raising no error; modelled as an
`Except` to make the absence of a construction-time `ValueError` explicit. -/
def SAMPromptEncoder_init (cfg : SAMPromptEncoderConfig) :
    Except String SAMPromptEncoderConfig :=
  .ok cfg

/-- `OldRandomFlip.__init__` from `benchmarks/vectorized_random_flip.py`:
resolve the flip mode into the `(horizontal, vertical)` flag pair, raising a
`ValueError` naming the layer and the offending argument when the mode is not
one of the three recognized strings. -/
def OldRandomFlip_init (layerName mode : String) :
    Except String (Bool × Bool) :=
  if mode = "horizontal" then .ok (true, false)
  else if mode = "vertical" then .ok (false, true)
  else if mode = "horizontal_and_vertical" then .ok (true, true)
  else .error ("RandomFlip layer " ++ layerName ++
    " received an unknown mode=" ++ mode)

/-- C1: in `SAMPromptEncoder.__embed_points`, a point whose label is `-1`
receives exactly the `not_a_point_embed` table row, independent of the point's
coordinates and of the foreground/background table contents: the second
`ops.where` (the not-a-point substitution) is applied after, and takes
priority over, the foreground/background addition. -/
theorem notAPoint_override (e : PromptEncoder) (p : ℚ × ℚ) :
    embedPoint e p (-1) = e.not_a_point_embed := rfl

/-- C2: in `SAMPromptEncoder.__embed_points`, a point with a label other than
`-1` receives the positional encoding of its coordinates plus `0.5`,
normalized by `input_image_size`, plus the background table row when the label
is `0` and the foreground table row for every other label value. -/
theorem point_label_partition (e : PromptEncoder) (p : ℚ × ℚ) (label : ℤ)
    (h : label ≠ -1) :
    embedPoint e p label =
      vadd (fourierFeatures e.sinf e.cosf e.basis
        ((p.1 + 0.5) / ((e.input_image_size.2 : ℚ)),
         (p.2 + 0.5) / ((e.input_image_size.1 : ℚ))))
        (if label = 0 then e.background_point_embed
         else e.foreground_point_embed) := by
  rcases eq_or_ne label 0 with h0 | h0 <;>
    simp [embedPoint, encode_coordinates, h, h0]

/-- Witness for C2: the point `(10, 20)` with the foreground label `1` on a
100×100 input image. -/
theorem point_label_partition_witness :
    (1 : ℤ) ≠ -1 ∧
    embedPoint exEncoder (10, 20) 1 =
      vadd (fourierFeatures exEncoder.sinf exEncoder.cosf exEncoder.basis
        ((10 + 0.5) / ((exEncoder.input_image_size.2 : ℚ)),
         (20 + 0.5) / ((exEncoder.input_image_size.1 : ℚ))))
        (if (1 : ℤ) = 0 then exEncoder.background_point_embed
         else exEncoder.foreground_point_embed) :=
  ⟨by decide, point_label_partition exEncoder (10, 20) 1 (by decide)⟩

theorem vadd_length (a b : Vec) : (vadd a b).length = min a.length b.length :=
  List.length_zipWith ..

theorem fourierFeatures_length (sinf cosf : ℚ → ℚ) (basis : List (ℚ × ℚ))
    (c : ℚ × ℚ) : (fourierFeatures sinf cosf basis c).length = 2 * basis.length := by
  simp [fourierFeatures, two_mul]

theorem embed_box_cons (e : PromptEncoder) (b : (ℚ × ℚ) × (ℚ × ℚ))
    (bs : List ((ℚ × ℚ) × (ℚ × ℚ))) :
    embed_box e (b :: bs) =
      vadd (encode_coordinates e.sinf e.cosf e.basis e.input_image_size
          (b.1.1 + 0.5, b.1.2 + 0.5)) e.top_left_corner_embed ::
        vadd (encode_coordinates e.sinf e.cosf e.basis e.input_image_size
          (b.2.1 + 0.5, b.2.2 + 0.5)) e.bottom_right_corner_embed ::
          embed_box e bs := rfl

theorem embed_box_length (e : PromptEncoder)
    (boxes : List ((ℚ × ℚ) × (ℚ × ℚ))) :
    (embed_box e boxes).length = 2 * boxes.length := by
  induction boxes with
  | nil => rfl
  | cons b bs ih => rw [embed_box_cons]; simp [ih]; omega

theorem embed_box_getD_tl (e : PromptEncoder)
    (boxes : List ((ℚ × ℚ) × (ℚ × ℚ))) (k : ℕ) (h : k < boxes.length) :
    (embed_box e boxes).getD (2 * k) [] =
      vadd (encode_coordinates e.sinf e.cosf e.basis e.input_image_size
          ((boxes.getD k ((0, 0), (0, 0))).1.1 + 0.5,
           (boxes.getD k ((0, 0), (0, 0))).1.2 + 0.5))
        e.top_left_corner_embed := by
  induction boxes generalizing k with
  | nil => simp at h
  | cons b bs ih =>
    cases k with
    | zero => rw [embed_box_cons]; rfl
    | succ k =>
      rw [embed_box_cons]
      have h2 : 2 * (k + 1) = 2 * k + 1 + 1 := by ring
      rw [h2, List.getD_cons_succ, List.getD_cons_succ, List.getD_cons_succ]
      exact ih k (by simpa using Nat.lt_of_succ_lt_succ h)

theorem embed_box_getD_br (e : PromptEncoder)
    (boxes : List ((ℚ × ℚ) × (ℚ × ℚ))) (k : ℕ) (h : k < boxes.length) :
    (embed_box e boxes).getD (2 * k + 1) [] =
      vadd (encode_coordinates e.sinf e.cosf e.basis e.input_image_size
          ((boxes.getD k ((0, 0), (0, 0))).2.1 + 0.5,
           (boxes.getD k ((0, 0), (0, 0))).2.2 + 0.5))
        e.bottom_right_corner_embed := by
  induction boxes generalizing k with
  | nil => simp at h
  | cons b bs ih =>
    cases k with
    | zero => rw [embed_box_cons]; rfl
    | succ k =>
      rw [embed_box_cons]
      have h2 : 2 * (k + 1) + 1 = 2 * k + 1 + 1 + 1 := by ring
      rw [h2, List.getD_cons_succ, List.getD_cons_succ, List.getD_cons_succ]
      exact ih k (by simpa using Nat.lt_of_succ_lt_succ h)

theorem embed_box_mem_length (e : PromptEncoder)
    (boxes : List ((ℚ × ℚ) × (ℚ × ℚ)))
    (hb : 2 * e.basis.length = e.embed_dim)
    (htl : e.top_left_corner_embed.length = e.embed_dim)
    (hbr : e.bottom_right_corner_embed.length = e.embed_dim) :
    ∀ v ∈ embed_box e boxes, v.length = e.embed_dim := by
  intro v hv
  simp only [embed_box, List.mem_flatten, List.mem_map] at hv
  obtain ⟨l, ⟨bx, hbx, hl2⟩, hvl⟩ := hv
  subst hl2
  simp only [List.mem_cons, List.not_mem_nil, or_false] at hvl
  rcases hvl with h1 | h1 <;> subst h1 <;>
    simp [vadd_length, encode_coordinates, fourierFeatures_length, hb, htl, hbr]

/-- C3: `SAMPromptEncoder.__embed_box` adds `0.5` to all box coordinates,
encodes them positionally, adds the top-left table row to corner index 0 and
the bottom-right table row to corner index 1, and flattens the corner axis
into the sequence axis: box `k` contributes exactly the two consecutive
sequence entries `2k` and `2k+1`, the sequence length is `2 * num_boxes`, and
(for well-shaped tables and basis) every entry has length `embed_dim`. -/
theorem box_corner_embeddings (e : PromptEncoder)
    (boxes : List ((ℚ × ℚ) × (ℚ × ℚ))) (k : ℕ) (h : k < boxes.length)
    (hb : 2 * e.basis.length = e.embed_dim)
    (htl : e.top_left_corner_embed.length = e.embed_dim)
    (hbr : e.bottom_right_corner_embed.length = e.embed_dim) :
    (embed_box e boxes).length = 2 * boxes.length ∧
    (embed_box e boxes).getD (2 * k) [] =
      vadd (encode_coordinates e.sinf e.cosf e.basis e.input_image_size
          ((boxes.getD k ((0, 0), (0, 0))).1.1 + 0.5,
           (boxes.getD k ((0, 0), (0, 0))).1.2 + 0.5))
        e.top_left_corner_embed ∧
    (embed_box e boxes).getD (2 * k + 1) [] =
      vadd (encode_coordinates e.sinf e.cosf e.basis e.input_image_size
          ((boxes.getD k ((0, 0), (0, 0))).2.1 + 0.5,
           (boxes.getD k ((0, 0), (0, 0))).2.2 + 0.5))
        e.bottom_right_corner_embed ∧
    (∀ v ∈ embed_box e boxes, v.length = e.embed_dim) :=
  ⟨embed_box_length e boxes, embed_box_getD_tl e boxes k h,
    embed_box_getD_br e boxes k h, embed_box_mem_length e boxes hb htl hbr⟩

/-- Witness for C3: one box `((1,2),(3,4))` on the concrete encoder. -/
theorem box_corner_embeddings_witness :
    0 < exBoxes.length ∧
    2 * exEncoder.basis.length = exEncoder.embed_dim ∧
    exEncoder.top_left_corner_embed.length = exEncoder.embed_dim ∧
    exEncoder.bottom_right_corner_embed.length = exEncoder.embed_dim ∧
    ((embed_box exEncoder exBoxes).length = 2 * exBoxes.length ∧
     (embed_box exEncoder exBoxes).getD (2 * 0) [] =
       vadd (encode_coordinates exEncoder.sinf exEncoder.cosf exEncoder.basis
           exEncoder.input_image_size
           ((exBoxes.getD 0 ((0, 0), (0, 0))).1.1 + 0.5,
            (exBoxes.getD 0 ((0, 0), (0, 0))).1.2 + 0.5))
         exEncoder.top_left_corner_embed ∧
     (embed_box exEncoder exBoxes).getD (2 * 0 + 1) [] =
       vadd (encode_coordinates exEncoder.sinf exEncoder.cosf exEncoder.basis
           exEncoder.input_image_size
           ((exBoxes.getD 0 ((0, 0), (0, 0))).2.1 + 0.5,
            (exBoxes.getD 0 ((0, 0), (0, 0))).2.2 + 0.5))
         exEncoder.bottom_right_corner_embed ∧
     (∀ v ∈ embed_box exEncoder exBoxes, v.length = exEncoder.embed_dim)) :=
  ⟨by decide, by decide, by decide, by decide,
    box_corner_embeddings exEncoder exBoxes 0
      (by decide) (by decide) (by decide) (by decide)⟩

theorem getD_range_map {α : Type} (f : ℕ → α) (n i : ℕ) (d : α) (h : i < n) :
    ((List.range n).map f).getD i d = f i := by
  rw [List.getD_eq_getElem?_getD]
  simp [List.getElem?_range, h]

/-- C4: `SAMPromptEncoder.call` forms `sparse_embeddings` by concatenating the
point-derived sequence and the box-derived sequence along the sequence axis,
points first: on each batch row the sequence length is exactly
`num_points + 2 * num_boxes`, the first `num_points` entries are the point
embeddings and the rest are the box embeddings; either segment may be empty
(and with both empty the row is the empty sequence), concatenation with an
empty segment being a no-op, never an error. -/
theorem sparse_concat (e : PromptEncoder) (inp : PromptInputs) (b : ℕ)
    (hb : b < inp.points.length)
    (hl : (inp.labels.getD b []).length = (inp.points.getD b []).length) :
    (call e inp).sparse_embeddings.length = inp.points.length ∧
    ((call e inp).sparse_embeddings.getD b []).length =
      (inp.points.getD b []).length + 2 * (inp.boxes.getD b []).length ∧
    ((call e inp).sparse_embeddings.getD b []).take
        (inp.points.getD b []).length =
      embed_points e (inp.points.getD b []) (inp.labels.getD b []) ∧
    ((call e inp).sparse_embeddings.getD b []).drop
        (inp.points.getD b []).length =
      embed_box e (inp.boxes.getD b []) := by
  have hrow : (call e inp).sparse_embeddings.getD b [] =
      embed_points e (inp.points.getD b []) (inp.labels.getD b []) ++
        embed_box e (inp.boxes.getD b []) := by
    simp only [call]
    exact getD_range_map _ _ _ _ hb
  have hplen :
      (embed_points e (inp.points.getD b []) (inp.labels.getD b [])).length =
        (inp.points.getD b []).length := by
    simp only [embed_points, List.length_zipWith, hl, Nat.min_self]
  refine ⟨by simp [call], ?_, ?_, ?_⟩
  · rw [hrow, List.length_append, hplen, embed_box_length]
  · rw [hrow, ← hplen, List.take_left]
  · rw [hrow, ← hplen, List.drop_left]

/-- Witness for C4: one batch row with no points and no boxes — both segments
empty, the sparse row is the empty sequence of length `0 + 2*0`. -/
theorem sparse_concat_witness :
    0 < exInputsEmpty.points.length ∧
    (exInputsEmpty.labels.getD 0 []).length =
      (exInputsEmpty.points.getD 0 []).length ∧
    ((call exEncoder exInputsEmpty).sparse_embeddings.length =
       exInputsEmpty.points.length ∧
     ((call exEncoder exInputsEmpty).sparse_embeddings.getD 0 []).length =
       (exInputsEmpty.points.getD 0 []).length +
         2 * (exInputsEmpty.boxes.getD 0 []).length ∧
     ((call exEncoder exInputsEmpty).sparse_embeddings.getD 0 []).take
         (exInputsEmpty.points.getD 0 []).length =
       embed_points exEncoder (exInputsEmpty.points.getD 0 [])
         (exInputsEmpty.labels.getD 0 []) ∧
     ((call exEncoder exInputsEmpty).sparse_embeddings.getD 0 []).drop
         (exInputsEmpty.points.getD 0 []).length =
       embed_box exEncoder (exInputsEmpty.boxes.getD 0 [])) :=
  ⟨by decide, by decide,
    sparse_concat exEncoder exInputsEmpty 0 (by decide) (by decide)⟩

/-- C8: on one built encoder state, the `dense_positional_embeddings` output
of `SAMPromptEncoder.call` is the same for any two calls, whatever the prompt
inputs (points, labels, boxes, masks) of either call: it depends only on the
frozen basis and the configured grid size. -/
theorem dense_positional_prompt_independent (e : PromptEncoder)
    (inp1 inp2 : PromptInputs) :
    (call e inp1).dense_positional_embeddings =
      (call e inp2).dense_positional_embeddings := rfl

/-- C10: the `dense_positional_embeddings` output of `SAMPromptEncoder.call`
always carries a leading batch axis of size exactly 1 — it is the image-grid
encoding under `[None, ...]` — regardless of the batch size of the prompt
inputs; the encoder never tiles it to the prompt batch size. -/
theorem dense_positional_batch_axis_one (e : PromptEncoder)
    (inp : PromptInputs) :
    (call e inp).dense_positional_embeddings.length = 1 ∧
    (call e inp).dense_positional_embeddings =
      [encode_image e.sinf e.cosf e.basis e.image_embedding_size] :=
  ⟨rfl, rfl⟩

theorem getD_replicate {α : Type} (n i : ℕ) (a d : α) (h : i < n) :
    (List.replicate n a).getD i d = a := by
  rw [List.getD_eq_getElem?_getD]
  simp [List.getElem?_replicate, h]

/-- C5: when the supplied mask prompt is empty (`ops.size(mask)` is zero),
`SAMPromptEncoder.call` returns as `dense_embeddings` the learned
`no_mask_embed` row broadcast over the full `image_embedding_size` grid for
every batch element: the same vector at every batch index and every spatial
cell.  This path is an ordinary value-level branch of the computation, not an
error. -/
theorem empty_mask_dense (e : PromptEncoder) (inp : PromptInputs)
    (h : maskBatchSize inp.masks = 0) :
    (call e inp).dense_embeddings =
      List.replicate inp.points.length
        (List.replicate e.image_embedding_size.1
          (List.replicate e.image_embedding_size.2 e.no_mask_embed)) ∧
    ∀ b i j, b < inp.points.length → i < e.image_embedding_size.1 →
      j < e.image_embedding_size.2 →
      (((call e inp).dense_embeddings.getD b []).getD i []).getD j [] =
        e.no_mask_embed := by
  have hd : (call e inp).dense_embeddings =
      List.replicate inp.points.length
        (List.replicate e.image_embedding_size.1
          (List.replicate e.image_embedding_size.2 e.no_mask_embed)) := by
    simp [call, h]
  refine ⟨hd, fun b i j hb hi hj => ?_⟩
  rw [hd, getD_replicate _ _ _ _ hb, getD_replicate _ _ _ _ hi,
    getD_replicate _ _ _ _ hj]

/-- Witness for C5: the empty mask prompt on the concrete encoder. -/
theorem empty_mask_dense_witness :
    maskBatchSize exInputsEmpty.masks = 0 ∧
    ((call exEncoder exInputsEmpty).dense_embeddings =
       List.replicate exInputsEmpty.points.length
         (List.replicate exEncoder.image_embedding_size.1
           (List.replicate exEncoder.image_embedding_size.2
             exEncoder.no_mask_embed)) ∧
     ∀ b i j, b < exInputsEmpty.points.length →
       i < exEncoder.image_embedding_size.1 →
       j < exEncoder.image_embedding_size.2 →
       (((call exEncoder exInputsEmpty).dense_embeddings.getD b []).getD i
           []).getD j [] = exEncoder.no_mask_embed) :=
  ⟨by decide, empty_mask_dense exEncoder exInputsEmpty (by decide)⟩

/-- C7: round-trip consistency of the two entry points of the positional
embedding generator: for every valid grid size `(H, W)` and every cell
`(i, j)` of the grid, the `encode_image` output at that cell equals
`encode_coordinates` applied to the pixel-center coordinate
`(j + 0.5, i + 0.5)` in `(x, y)` order with the grid itself as the
normalizing image size. -/
theorem encode_image_consistency (sinf cosf : ℚ → ℚ) (basis : List (ℚ × ℚ))
    (H W i j : ℕ) (hi : i < H) (hj : j < W) :
    ((encode_image sinf cosf basis (H, W)).getD i []).getD j [] =
      encode_coordinates sinf cosf basis (H, W)
        ((j : ℚ) + 0.5, (i : ℚ) + 0.5) := by
  unfold encode_image encode_coordinates
  rw [getD_range_map _ _ _ _ hi, getD_range_map _ _ _ _ hj]

/-- Witness for C7: cell `(1, 2)` of a 2×3 grid. -/
theorem encode_image_consistency_witness :
    (1 : ℕ) < 2 ∧ (2 : ℕ) < 3 ∧
    ((encode_image id id [((1 : ℚ), (2 : ℚ))] (2, 3)).getD 1 []).getD 2 [] =
      encode_coordinates id id [((1 : ℚ), (2 : ℚ))] (2, 3)
        (((2 : ℕ) : ℚ) + 0.5, ((1 : ℕ) : ℚ) + 0.5) :=
  ⟨by decide, by decide,
    encode_image_consistency id id [(1, 2)] 2 3 1 2 (by decide) (by decide)⟩

theorem HasShape.headD_length {img : Image} {H W C : ℕ}
    (h : HasShape img H W C) (hH : 0 < H) : (img.headD []).length = W := by
  obtain ⟨h1, h2, -⟩ := h
  cases img with
  | nil => simp at h1; omega
  | cons r t => exact h2 r (List.mem_cons_self r t)

theorem conv2d_shape (k s cout : ℕ) (P : ConvParams) {img : Image}
    {H W C : ℕ} (h : HasShape img H W C) (hH : 0 < H) :
    HasShape (conv2d k s cout P img) (convOut H k s) (convOut W k s) cout := by
  have h1 : img.length = H := h.1
  have hw : (img.headD []).length = W := h.headD_length hH
  refine ⟨by simp [conv2d, h1], ?_, ?_⟩
  · intro row hrow
    simp only [conv2d, List.mem_map] at hrow
    obtain ⟨i, hi, rfl⟩ := hrow
    simp only [List.length_map, List.length_range]
    rw [hw]
  · intro row hrow px hpx
    simp only [conv2d, List.mem_map] at hrow
    obtain ⟨i, hi, rfl⟩ := hrow
    simp only [List.mem_map] at hpx
    obtain ⟨j, hj, rfl⟩ := hpx
    simp

theorem mapRows_shape (f : Vec → Vec) (hf : ∀ v, (f v).length = v.length)
    {img : Image} {H W C : ℕ} (h : HasShape img H W C) :
    HasShape (img.map (fun row => row.map f)) H W C := by
  obtain ⟨h1, h2, h3⟩ := h
  refine ⟨by simp [h1], ?_, ?_⟩
  · intro row hrow
    simp only [List.mem_map] at hrow
    obtain ⟨r, hr, rfl⟩ := hrow
    simp [h2 r hr]
  · intro row hrow px hpx
    simp only [List.mem_map] at hrow
    obtain ⟨r, hr, rfl⟩ := hrow
    simp only [List.mem_map] at hpx
    obtain ⟨v, hv, rfl⟩ := hpx
    rw [hf v]
    exact h3 r hr v hv

theorem layerNorm_length (rsqrt : ℚ → ℚ) (P : NormParams) (x : Vec) :
    (layerNorm rsqrt P x).length = x.length := by
  simp [layerNorm]

theorem applyDownscaler_shape (embed_dim mask_in_chans : ℕ)
    (d : MaskDownscaler) {img : Image} {H W : ℕ}
    (h : HasShape img (4 * H) (4 * W) 1) (hH : 0 < H) (hW : 0 < W) :
    HasShape (applyDownscaler embed_dim mask_in_chans d img) H W embed_dim := by
  have c1 : convOut (4 * H) 2 2 = 2 * H := by unfold convOut; omega
  have c2 : convOut (4 * W) 2 2 = 2 * W := by unfold convOut; omega
  have c3 : convOut (2 * H) 2 2 = H := by unfold convOut; omega
  have c4 : convOut (2 * W) 2 2 = W := by unfold convOut; omega
  have c5 : convOut H 1 1 = H := by unfold convOut; omega
  have c6 : convOut W 1 1 = W := by unfold convOut; omega
  have s1 := conv2d_shape 2 2 (mask_in_chans / 4) d.conv1 h (by omega)
  rw [c1, c2] at s1
  have s2 := mapRows_shape (layerNorm d.rsqrt d.norm1)
    (layerNorm_length d.rsqrt d.norm1) s1
  have s3 := mapRows_shape (fun v => v.map d.act) (fun v => by simp) s2
  have s4 := conv2d_shape 2 2 mask_in_chans d.conv2 s3 (by omega)
  rw [c3, c4] at s4
  have s5 := mapRows_shape (layerNorm d.rsqrt d.norm2)
    (layerNorm_length d.rsqrt d.norm2) s4
  have s6 := mapRows_shape (fun v => v.map d.act) (fun v => by simp) s5
  have s7 := conv2d_shape 1 1 embed_dim d.conv3 s6 (by omega)
  rw [c5, c6] at s7
  exact s7

/-- C6: for a non-empty mask prompt (nonzero total size and a nonzero
multi-mask axis), `SAMPromptEncoder.call` flattens the batch and multi-mask
axes together into a single leading axis and applies the `mask_downscaler`
pipeline — conv (stride 2) → layer normalization → activation → conv
(stride 2) → layer normalization → activation → conv (stride 1, `embed_dim`
channels) — to each flattened single-channel mask; every item of spatial
shape `4H×4W×1`, with `(H, W)` the configured `image_embedding_size`, is
mapped to an output of exact shape `H×W×embed_dim`. -/
theorem mask_downscaler_shape (e : PromptEncoder) (inp : PromptInputs)
    (hne : maskBatchSize inp.masks ≠ 0)
    (hN : (inp.masks.headD []).length ≠ 0)
    (hshape : ∀ item ∈ inp.masks.flatten,
      HasShape item (4 * e.image_embedding_size.1)
        (4 * e.image_embedding_size.2) 1)
    (hH : 0 < e.image_embedding_size.1)
    (hW : 0 < e.image_embedding_size.2) :
    (call e inp).dense_embeddings =
      (inp.masks.flatten).map
        (applyDownscaler e.embed_dim e.mask_in_chans e.downscaler) ∧
    ∀ out ∈ (call e inp).dense_embeddings,
      HasShape out e.image_embedding_size.1 e.image_embedding_size.2
        e.embed_dim := by
  have hd : (call e inp).dense_embeddings =
      (inp.masks.flatten).map
        (applyDownscaler e.embed_dim e.mask_in_chans e.downscaler) := by
    simp only [call]
    rw [if_neg hne, if_neg hN]
  refine ⟨hd, ?_⟩
  rw [hd]
  intro out hout
  simp only [List.mem_map] at hout
  obtain ⟨item, hitem, rfl⟩ := hout
  exact applyDownscaler_shape _ _ _ (hshape item hitem) hH hW

/-- Witness for C6: one 4×4×1 mask on the concrete encoder (grid 1×1,
embed_dim 2). -/
theorem mask_downscaler_shape_witness :
    maskBatchSize exInputsMask.masks ≠ 0 ∧
    (exInputsMask.masks.headD []).length ≠ 0 ∧
    (∀ item ∈ exInputsMask.masks.flatten,
      HasShape item (4 * exEncoder.image_embedding_size.1)
        (4 * exEncoder.image_embedding_size.2) 1) ∧
    0 < exEncoder.image_embedding_size.1 ∧
    0 < exEncoder.image_embedding_size.2 ∧
    ((call exEncoder exInputsMask).dense_embeddings =
       (exInputsMask.masks.flatten).map
         (applyDownscaler exEncoder.embed_dim exEncoder.mask_in_chans
           exEncoder.downscaler) ∧
     ∀ out ∈ (call exEncoder exInputsMask).dense_embeddings,
       HasShape out exEncoder.image_embedding_size.1
         exEncoder.image_embedding_size.2 exEncoder.embed_dim) :=
  ⟨by decide, by decide, by decide, by decide, by decide,
    mask_downscaler_shape exEncoder exInputsMask (by decide) (by decide)
      (by decide) (by decide) (by decide)⟩

/-- C9 counterexample: constructing `SAMPromptEncoder` with a zero dimension
in `input_image_size` does not fail fast — `__init__` contains no validation
of `input_image_size` and returns normally, so the construction-time value
error the claim requires for a zero image dimension does not occur. -/
theorem sam_init_zero_dim_no_error :
    (SAMPromptEncoder_init
      { embed_dim := 256, image_embedding_size := (64, 64),
        input_image_size := (0, 0), mask_in_chans := 16,
        activation := "gelu" }).isOk = true := rfl

/-- C9 amended: `OldRandomFlip` rejects an unrecognized flip mode at
construction time with a descriptive value error naming the layer and the
offending mode, while `SAMPromptEncoder.__init__` performs no configuration
validation at all: every configuration, including a zero dimension in
`input_image_size`, is accepted without error. -/
theorem flip_mode_validation (layerName mode : String)
    (h1 : mode ≠ "horizontal") (h2 : mode ≠ "vertical")
    (h3 : mode ≠ "horizontal_and_vertical") :
    OldRandomFlip_init layerName mode =
      .error ("RandomFlip layer " ++ layerName ++
        " received an unknown mode=" ++ mode) ∧
    ∀ cfg : SAMPromptEncoderConfig, SAMPromptEncoder_init cfg = .ok cfg := by
  refine ⟨?_, fun cfg => rfl⟩
  simp [OldRandomFlip_init, h1, h2, h3]

/-- Witness for the amended C9: the unrecognized mode `"diagonal"`. -/
theorem flip_mode_validation_witness :
    ("diagonal" : String) ≠ "horizontal" ∧
    ("diagonal" : String) ≠ "vertical" ∧
    ("diagonal" : String) ≠ "horizontal_and_vertical" ∧
    (OldRandomFlip_init "random_flip" "diagonal" =
       .error ("RandomFlip layer " ++ "random_flip" ++
         " received an unknown mode=" ++ "diagonal") ∧
     ∀ cfg : SAMPromptEncoderConfig, SAMPromptEncoder_init cfg = .ok cfg) :=
  ⟨by decide, by decide, by decide,
    flip_mode_validation "random_flip" "diagonal"
      (by decide) (by decide) (by decide)⟩

end SAM
